import Mathlib

/-!
Shallow embedding of the file-lifecycle / quota subsystem of the `drive`
web application (Next.js route handlers over a document store), together
with theorems settling the frozen claims about its specification.

Each definition is translated from the repository source; the file or
handler it embeds is named in its doc comment.
-/

namespace Drive

/-- Coarse file-type category returned by the classifier in
`src/lib/file-utils.ts` (`getFileType`). -/
inductive FileType where
  | image
  | video
  | pdf
  | document
  | other
deriving DecidableEq, Repr

/-- Model of the JavaScript `String.prototype.startsWith` used by
`getFileType`: a structural character-list test with the same semantics. -/
def jsStartsWith (s pre : String) : Bool :=
  pre.data.isPrefixOf s.data

/-- The closed allow-list `documentTypes` of office/text MIME types in
`src/lib/file-utils.ts`. -/
def documentTypes : List String :=
  ["application/msword",
   "application/vnd.openxmlformats-officedocument.wordprocessingml.document",
   "application/vnd.ms-excel",
   "application/vnd.openxmlformats-officedocument.spreadsheetml.sheet",
   "application/vnd.ms-powerpoint",
   "application/vnd.openxmlformats-officedocument.presentationml.presentation",
   "text/plain",
   "text/csv",
   "application/rtf",
   "application/vnd.oasis.opendocument.text",
   "application/vnd.oasis.opendocument.spreadsheet",
   "application/vnd.oasis.opendocument.presentation"]

/-- `getFileType` from `src/lib/file-utils.ts`: maps a MIME type to a
category, checking `image/` then `video/` then exact `application/pdf`
then the document allow-list, defaulting to `other`. -/
def getFileType (mimeType : String) : FileType :=
  if jsStartsWith mimeType "image/" then .image
  else if jsStartsWith mimeType "video/" then .video
  else if mimeType = "application/pdf" then .pdf
  else if documentTypes.contains mimeType then .document
  else .other

/-- A user document, after the `UserSchema` in the models module
(email/name/password fields irrelevant to the claims are kept as plain
strings; `storageUsed` and `storageLimit` are byte counters). -/
structure User where
  id : String
  email : String
  name : String
  storageUsed : Int
  storageLimit : Int
deriving DecidableEq, Repr

/-- A file document, after the `FileSchema` in the models module.
Timestamps are abstract integers. -/
structure File where
  id : String
  name : String
  originalName : String
  size : Int
  mimeType : String
  fileType : FileType
  blobUrl : String
  blobName : String
  userId : String
  uploadedAt : Int
  isDeleted : Bool
  deletedAt : Option Int
  isStarred : Bool
  isPublic : Bool
  shareToken : Option String
  description : Option String
  tags : List String
deriving DecidableEq, Repr

/-- The two persisted collections (Users, Files). -/
structure DriveState where
  users : List User
  files : List File
deriving DecidableEq, Repr

/-- Error taxonomy of the HTTP handlers (401/400/404/quota/verification). -/
inductive ApiError where
  | unauthorized
  | invalidRequest
  | notFound
  | quotaExceeded
  | verificationFailed
deriving DecidableEq, Repr

/-- `Model.findOne` on the Files collection: first document matching the
predicate. -/
def findFile (st : DriveState) (p : File → Bool) : Option File :=
  st.files.find? p

/-- `User.findById`. -/
def findUserById (st : DriveState) (uid : String) : Option User :=
  st.users.find? (fun u => u.id == uid)

/-- Saving a fetched file document back: the document with this `_id` is
replaced by the mutated version. -/
def updateFile (fid : String) (g : File → File) (l : List File) : List File :=
  l.map (fun f => if f.id == fid then g f else f)

/-- Saving a fetched user document back. -/
def updateUser (uid : String) (g : User → User) (l : List User) : List User :=
  l.map (fun u => if u.id == uid then g u else u)

/-- Query selector on files built by `GET /api/files`
(`src/app/api/files/route.ts`): a field constraint of `none` means the
selector does not mention the field. -/
structure FileQuery where
  userId : String
  isDeleted : Option Bool
  isStarred : Option Bool
  uploadedAtGte : Option Int
  fileTypeIn : Option (List FileType)
deriving DecidableEq, Repr

/-- The `typeMap` table in `GET /api/files`. -/
inductive FileFilter where
  | all
  | starred
  | recent
  | images
  | videos
  | pdfs
  | docs
  | trash
deriving DecidableEq, Repr

/-- `typeMap` from `src/app/api/files/route.ts`. -/
def typeMap : FileFilter → List FileType
  | .images => [.image]
  | .videos => [.video]
  | .pdfs => [.pdf]
  | .docs => [.document]
  | _ => []

/-- Seven days, with time measured in milliseconds as in the handler. -/
def sevenDaysMs : Int := 7 * 24 * 60 * 60 * 1000

/-- Query construction of `GET /api/files` (`src/app/api/files/route.ts`,
search left empty). The trash branch mirrors the source exactly: it first
assigns `isDeleted = true` and then executes `delete query.isDeleted`,
which removes the field it just assigned, leaving no `isDeleted`
constraint at all. -/
def buildQuery (uid : String) (filter : FileFilter) (now : Int) : FileQuery :=
  let base : FileQuery :=
    { userId := uid, isDeleted := some false, isStarred := none,
      uploadedAtGte := none, fileTypeIn := none }
  if filter = .all then base
  else if filter = .starred then { base with isStarred := some true }
  else if filter = .recent then { base with uploadedAtGte := some (now - sevenDaysMs) }
  else if filter = .trash then
    let q1 := { base with isDeleted := some true }
    { q1 with isDeleted := none }
  else if (typeMap filter).length > 0 then { base with fileTypeIn := some (typeMap filter) }
  else base

/-- Whether a file document matches a query selector. -/
def matchesQuery (q : FileQuery) (f : File) : Bool :=
  f.userId == q.userId
    && (match q.isDeleted with | none => true | some b => f.isDeleted == b)
    && (match q.isStarred with | none => true | some b => f.isStarred == b)
    && (match q.uploadedAtGte with | none => true | some t => decide (t ≤ f.uploadedAt))
    && (match q.fileTypeIn with | none => true | some ts => ts.contains f.fileType)

/-- The result set of `GET /api/files` before sorting and pagination. -/
def listFiles (st : DriveState) (uid : String) (filter : FileFilter) (now : Int) : List File :=
  st.files.filter (matchesQuery (buildQuery uid filter now))

/-- Ownership-and-liveness selector `{_id, userId, isDeleted: false}` used
by the single-file mutation handlers. -/
def liveOwnedBy (fid uid : String) (f : File) : Bool :=
  f.id == fid && f.userId == uid && f.isDeleted == false

/-- Ownership-and-trash selector `{_id, userId, isDeleted: true}` used by
restore and permanent delete. -/
def trashedOwnedBy (fid uid : String) (f : File) : Bool :=
  f.id == fid && f.userId == uid && f.isDeleted == true

/-- `DELETE /api/files/[id]` (`src/app/api/files/[id]/route.ts`): soft
delete. Finds the live owned file (404 otherwise), best-effort deletes the
blob (outside the modeled state), clamps the owner's `storageUsed` down by
the file's size, and marks the document deleted. The handler never touches
`deletedAt`. Error returns happen before any write, so they pair the error
with the unchanged state. -/
def softDelete (st : DriveState) (uid fid : String) :
    Except ApiError Unit × DriveState :=
  match st.files.find? (liveOwnedBy fid uid) with
  | none => (.error .notFound, st)
  | some file =>
    let users1 := updateUser uid
      (fun u => { u with storageUsed := max 0 (u.storageUsed - file.size) }) st.users
    let files1 := updateFile file.id (fun f => { f with isDeleted := true }) st.files
    (.ok (), { st with users := users1, files := files1 })

/-- `DELETE /api/files/[id]/permanent-delete`
(`src/app/api/files/[id]/permanent-delete/route.ts`): requires the file to
be in trash and owned (404 otherwise), best-effort deletes the blob,
clamps the owner's `storageUsed` down by the file's size, and removes the
document (`findByIdAndDelete`). -/
def permanentlyDelete (st : DriveState) (uid fid : String) :
    Except ApiError Unit × DriveState :=
  match st.files.find? (trashedOwnedBy fid uid) with
  | none => (.error .notFound, st)
  | some file =>
    let users1 := updateUser uid
      (fun u => { u with storageUsed := max 0 (u.storageUsed - file.size) }) st.users
    let files1 := st.files.filter (fun f => f.id != fid)
    (.ok (), { st with users := users1, files := files1 })

/-- The 2 GiB upload size cap shared by the upload handlers. -/
def maxUploadSize : Int := 2 * 1024 * 1024 * 1024

/-- The 5 GiB default applied when `user.storageLimit` is falsy
(`user.storageLimit || 5 * 1024 * 1024 * 1024`). -/
def defaultStorageLimit : Int := 5 * 1024 * 1024 * 1024

/-- JavaScript `x || d` for a numeric field: `0` is falsy. -/
def orDefault (x d : Int) : Int := if x == 0 then d else x

/-- The server-proxied upload handler with the quota check (the `POST`
upload handler in the orchestrator that loads the user, checks
`currentUsage + file.size > storageLimit`, saves the file document and
adds the size to `storageUsed`). The blob upload itself is outside the
modeled state; the adapter's results `blobUrl`/`blobName` and the fresh
document id are parameters. -/
def uploadPost (st : DriveState) (uid : String) (fileName : String)
    (fileSize : Int) (mime : String) (blobUrl blobName : String)
    (now : Int) (newId : String) : Except ApiError File × DriveState :=
  if fileSize > maxUploadSize then (.error .invalidRequest, st)
  else
    match st.users.find? (fun u => u.id == uid) with
    | none => (.error .notFound, st)
    | some user =>
      let currentUsage := orDefault user.storageUsed 0
      let storageLimit := orDefault user.storageLimit defaultStorageLimit
      if currentUsage + fileSize > storageLimit then (.error .quotaExceeded, st)
      else
        let newFile : File :=
          { id := newId, name := fileName, originalName := fileName,
            size := fileSize, mimeType := mime, fileType := getFileType mime,
            blobUrl := blobUrl, blobName := blobName, userId := uid,
            uploadedAt := now, isDeleted := false, deletedAt := none,
            isStarred := false, isPublic := false, shareToken := none,
            description := none, tags := [] }
        let users1 := updateUser uid
          (fun u => { u with storageUsed := currentUsage + fileSize }) st.users
        (.ok newFile, { st with users := users1, files := st.files ++ [newFile] })

/-- Body of `POST /api/upload/register`; a field absent from the JSON is
`none`. -/
structure RegisterRequest where
  fileName : Option String
  originalName : Option String
  fileSize : Option Int
  mimeType : Option String
  blobName : Option String
  blobUrl : Option String
deriving DecidableEq, Repr

/-- JavaScript falsiness of an optional string field (`!x`): absent or
empty. -/
def strFalsy : Option String → Bool
  | none => true
  | some s => s == ""

/-- JavaScript falsiness of an optional numeric field (`!x`): absent or
zero. -/
def intFalsy : Option Int → Bool
  | none => true
  | some n => n == 0

/-- JavaScript `a || b` on an optional string. -/
def strOr (a : Option String) (b : String) : String :=
  match a with
  | none => b
  | some s => if s == "" then b else s

/-- `POST /api/upload/register` (`src/app/api/upload/register/route.ts`):
finalizes a direct-to-blob upload. The destructured fields are checked
with `if (!fileName || !fileSize || !mimeType || !blobName || !blobUrl)`
— `originalName` is not in the guard. Then the blob's existence is
verified through the blob adapter (modeled as the oracle `blobExists`),
the user is loaded, the file document is saved with
`name = originalName || fileName`, and `fileSize` is added to the user's
`storageUsed`. All error returns precede every write. -/
def registerUpload (st : DriveState) (uid : String) (req : RegisterRequest)
    (blobExists : String → Bool) (now : Int) (newId : String) :
    Except ApiError File × DriveState :=
  if strFalsy req.fileName || intFalsy req.fileSize || strFalsy req.mimeType
      || strFalsy req.blobName || strFalsy req.blobUrl then
    (.error .invalidRequest, st)
  else
    let blobName := req.blobName.getD ""
    if !blobExists blobName then (.error .verificationFailed, st)
    else
      match st.users.find? (fun u => u.id == uid) with
      | none => (.error .notFound, st)
      | some user =>
        let fileName := req.fileName.getD ""
        let fileSize := req.fileSize.getD 0
        let mime := req.mimeType.getD ""
        let recordName := strOr req.originalName fileName
        let newFile : File :=
          { id := newId, name := recordName, originalName := recordName,
            size := fileSize, mimeType := mime, fileType := getFileType mime,
            blobUrl := req.blobUrl.getD "", blobName := blobName, userId := uid,
            uploadedAt := now, isDeleted := false, deletedAt := none,
            isStarred := false, isPublic := false, shareToken := none,
            description := none, tags := [] }
        let currentUsage := orDefault user.storageUsed 0
        let users1 := updateUser uid
          (fun u => { u with storageUsed := currentUsage + fileSize }) st.users
        (.ok newFile, { st with users := users1, files := st.files ++ [newFile] })

/-- JavaScript falsiness of the stored `shareToken` (`!file.shareToken`):
null/absent or the empty string. -/
def tokenFalsy : Option String → Bool
  | none => true
  | some s => s == ""

/-- `POST /api/files/[id]/share`: issue (or fetch) a share link for a
live owned file. A fresh token (the value `crypto.randomBytes(8)` would
hex-encode at this call) is a parameter; it is stored only when the file
has no token yet, in which case `isPublic` is also set. The handler
responds with `file.shareToken` as it is after the conditional write. -/
def shareIssue (st : DriveState) (uid fid : String) (freshToken : String) :
    Except ApiError String × DriveState :=
  match st.files.find? (liveOwnedBy fid uid) with
  | none => (.error .notFound, st)
  | some file =>
    if tokenFalsy file.shareToken then
      let files1 := updateFile file.id
        (fun f => { f with shareToken := some freshToken, isPublic := true }) st.files
      (.ok freshToken, { st with files := files1 })
    else
      (.ok (file.shareToken.getD ""), st)

/-- `DELETE /api/files/[id]/share`: revoke sharing on a live owned file
by clearing `shareToken` and `isPublic`. -/
def shareRevoke (st : DriveState) (uid fid : String) :
    Except ApiError Unit × DriveState :=
  match st.files.find? (liveOwnedBy fid uid) with
  | none => (.error .notFound, st)
  | some file =>
    let files1 := updateFile file.id
      (fun f => { f with shareToken := none, isPublic := false }) st.files
    (.ok (), { st with files := files1 })

/-- The redacted projection returned by `GET /api/share/[token]`: exactly
the fields the handler copies into the response — neither `userId` nor
`blobName` is among them. -/
structure PublicFileView where
  id : String
  name : String
  originalName : String
  size : Int
  mimeType : String
  fileType : FileType
  blobUrl : String
  uploadedAt : Int
  description : Option String
deriving DecidableEq, Repr

/-- The field projection performed by `GET /api/share/[token]`. -/
def toPublicView (f : File) : PublicFileView :=
  { id := f.id, name := f.name, originalName := f.originalName,
    size := f.size, mimeType := f.mimeType, fileType := f.fileType,
    blobUrl := f.blobUrl, uploadedAt := f.uploadedAt,
    description := f.description }

/-- Selector `{shareToken: token, isPublic: true, isDeleted: false}` of
the share-resolution handler. -/
def shareMatch (token : String) (f : File) : Bool :=
  f.shareToken == some token && f.isPublic == true && f.isDeleted == false

/-- `GET /api/share/[token]` (`src/app/api/share/[token]/route.ts`): the
unauthenticated share-resolution read. -/
def resolveShare (st : DriveState) (token : String) :
    Except ApiError PublicFileView :=
  match st.files.find? (shareMatch token) with
  | none => .error .notFound
  | some f => .ok (toPublicView f)

/-! ## Helper lemmas -/

/-- `find?` commutes with a map that does not change the predicate's
verdict on any element. -/
theorem find?_map_of_pred_eq {α : Type} (g : α → α) (p : α → Bool)
    (h : ∀ x, p (g x) = p x) (l : List α) :
    (l.map g).find? p = (l.find? p).map g := by
  induction l with
  | nil => rfl
  | cons a t ih =>
    by_cases hp : p a = true
    · simp [List.find?_cons, h, hp]
    · have hp1 : p a = false := by simpa using hp
      simp [List.find?_cons, h, hp1, ih]

/-- Two distinct prefixes of equal length cannot both start the same
string: a string starting with `video/` does not start with `image/`. -/
theorem video_not_image (s : String) :
    jsStartsWith s "video/" = true → jsStartsWith s "image/" = false := by
  intro hv
  by_contra hi
  have hi1 : jsStartsWith s "image/" = true := by
    cases h : jsStartsWith s "image/" <;> simp_all
  unfold jsStartsWith at hv hi1
  rw [List.isPrefixOf_iff_prefix] at hv hi1
  have hpre : ("image/".data) <+: ("video/".data) :=
    List.prefix_of_prefix_length_le hi1 hv (by decide)
  have heq := hpre.eq_of_length (by decide)
  exact absurd heq (by decide)

/-! ## Claim theorems -/

/-- C9: for every input string the file-type classifier returns exactly
one of the five categories and never throws (it is a total function into
the five-constructor type): `image` for any string with the `image/`
initial segment, `video` for the `video/` initial segment, `pdf` exactly
for `application/pdf`, `document` for members of the closed office/text
allow-list, and `other` for everything else. -/
theorem getFileType_spec (s : String) :
    (getFileType s = .image ∨ getFileType s = .video ∨ getFileType s = .pdf ∨
      getFileType s = .document ∨ getFileType s = .other) ∧
    (jsStartsWith s "image/" = true → getFileType s = .image) ∧
    (jsStartsWith s "video/" = true → getFileType s = .video) ∧
    (getFileType s = .pdf ↔ s = "application/pdf") ∧
    (s ∈ documentTypes → getFileType s = .document) ∧
    (jsStartsWith s "image/" = false → jsStartsWith s "video/" = false →
      s ≠ "application/pdf" → s ∉ documentTypes → getFileType s = .other) := by
  refine ⟨?_, ?_, ?_, ⟨?_, ?_⟩, ?_, ?_⟩
  · have h : ∀ t : FileType, t = .image ∨ t = .video ∨ t = .pdf ∨
        t = .document ∨ t = .other := by intro t; cases t <;> simp
    exact h _
  · intro h
    simp [getFileType, h]
  · intro h
    simp [getFileType, h, video_not_image s h]
  · intro h
    unfold getFileType at h
    split_ifs at h
    all_goals simp_all
  · intro h
    subst h
    decide
  · intro h
    simp only [documentTypes, List.mem_cons, List.not_mem_nil, or_false] at h
    rcases h with rfl | rfl | rfl | rfl | rfl | rfl | rfl | rfl | rfl | rfl | rfl | rfl <;> decide
  · intro h1 h2 h3 h4
    simp [getFileType, h1, h2, h3, h4]

/-- Witness for C9 at concrete inputs. -/
theorem getFileType_spec_witness :
    getFileType "image/png" = FileType.image ∧
    getFileType "video/mp4" = FileType.video ∧
    getFileType "text/csv" = FileType.document ∧
    getFileType "application/zip" = FileType.other :=
  ⟨(getFileType_spec "image/png").2.1 (by decide),
   (getFileType_spec "video/mp4").2.2.1 (by decide),
   (getFileType_spec "text/csv").2.2.2.2.1 (by decide),
   (getFileType_spec "application/zip").2.2.2.2.2 (by decide) (by decide)
     (by decide) (by decide)⟩

/-! ## Concrete fixtures for witnesses and counterexamples -/

/-- Sample user. -/
def aliceUser : User :=
  { id := "u1", email := "alice@example.com", name := "Alice",
    storageUsed := 600, storageLimit := 1000 }

/-- Live pdf file owned by `u1`. -/
def reportFile : File :=
  { id := "f1", name := "report.pdf", originalName := "report.pdf",
    size := 600, mimeType := "application/pdf", fileType := .pdf,
    blobUrl := "https://blob.example/f1", blobName := "b1", userId := "u1",
    uploadedAt := 100, isDeleted := false, deletedAt := none,
    isStarred := false, isPublic := false, shareToken := none,
    description := none, tags := [] }

/-- Trashed file owned by `u1`. -/
def trashedFile : File :=
  { reportFile with id := "f2", blobName := "b2", isDeleted := true }

/-- State holding one live file. -/
def stLive : DriveState := { users := [aliceUser], files := [reportFile] }

/-- State holding one trashed file. -/
def stTrash : DriveState := { users := [aliceUser], files := [trashedFile] }

/-- C1 (evidence of the code bug): in `GET /api/files` the trash branch
assigns `query.isDeleted = true` and then executes
`delete query.isDeleted`, which removes the field it just assigned, so
the trash selector carries no `isDeleted` constraint at all and a live
(`isDeleted = false`) file is returned by the `trash` filter — against
the claim that `trash` returns a file iff `isDeleted = true`. -/
theorem trash_filter_returns_live_file :
    reportFile.isDeleted = false ∧
    reportFile ∈ listFiles stLive "u1" .trash 100 ∧
    (buildQuery "u1" .trash 100).isDeleted = none := by
  refine ⟨rfl, ?_, rfl⟩
  decide

/-- C2 counterexample: soft-deleting a live owned file succeeds and marks
it deleted, but leaves `deletedAt` unset (`none`) — the handler never
writes `deletedAt`, against the claim that it is set to the current
time. -/
theorem softDelete_leaves_deletedAt_unset :
    (softDelete stLive "u1" "f1").1 = Except.ok () ∧
    (softDelete stLive "u1" "f1").2.files.map File.isDeleted = [true] ∧
    (softDelete stLive "u1" "f1").2.files.map File.deletedAt = [none] :=
  ⟨rfl, rfl, rfl⟩

/-- C2 (amended): for every live owned file, soft delete succeeds and
sets `isDeleted` to `true` on the documents with that id while changing
no other field of any file — in particular `deletedAt` is left unchanged
(never set to the current time); for any file id that does not match a
live owned file it rejects with `NotFound` and leaves all state
unchanged. The last conjunct states unconditionally that no `softDelete`
call ever changes any file's `deletedAt`. -/
theorem softDelete_spec (st : DriveState) (uid fid : String) :
    (st.files.find? (liveOwnedBy fid uid) = none →
      softDelete st uid fid = (.error .notFound, st)) ∧
    (∀ f, st.files.find? (liveOwnedBy fid uid) = some f →
      (softDelete st uid fid).1 = .ok () ∧
      (softDelete st uid fid).2.files =
        st.files.map (fun g => if g.id == fid then { g with isDeleted := true } else g)) ∧
    (softDelete st uid fid).2.files.map File.deletedAt = st.files.map File.deletedAt := by
  refine ⟨?_, ?_, ?_⟩
  · intro h
    simp [softDelete, h]
  · intro f hf
    have hfid : f.id = fid := by
      have hp := List.find?_some hf
      simp [liveOwnedBy] at hp
      exact hp.1.1
    constructor
    · simp [softDelete, hf]
    · simp [softDelete, hf, updateFile, hfid]
  · cases hf : st.files.find? (liveOwnedBy fid uid) with
    | none => simp [softDelete, hf]
    | some f =>
      simp only [softDelete, hf, updateFile, List.map_map]
      apply List.map_congr_left
      intro a _
      by_cases h : a.id == f.id <;> simp [h, Function.comp]

/-- Witness for C2's amended theorem at concrete inputs. -/
theorem softDelete_spec_witness :
    softDelete stTrash "u1" "f1" = (Except.error ApiError.notFound, stTrash) ∧
    (softDelete stLive "u1" "f1").1 = Except.ok () :=
  ⟨(softDelete_spec stTrash "u1" "f1").1 (by decide),
   ((softDelete_spec stLive "u1" "f1").2.1 reportFile (by decide)).1⟩

/-- JavaScript `x || 0` on a number is the identity. -/
theorem orDefault_zero (x : Int) : orDefault x 0 = x := by
  simp only [orDefault]
  by_cases h : x == 0
  · simp_all
  · simp [h]

/-- User at zero usage with a 1000-byte limit. -/
def quotaUser : User :=
  { id := "u3", email := "bob@example.com", name := "Bob",
    storageUsed := 0, storageLimit := 1000 }

/-- Empty drive of `quotaUser`. -/
def stQuota : DriveState := { users := [quotaUser], files := [] }

/-- State after the first 600-byte upload of the C3 scenario. -/
def stQuota1 : DriveState :=
  (uploadPost stQuota "u3" "a.bin" 600 "application/octet-stream"
    "https://blob.example/a" "ba" 0 "fa").2

/-- C3: with `storageUsed = 0, storageLimit = 1000`, a server-proxied
600-byte upload succeeds leaving `storageUsed = 600`; a second 600-byte
upload is rejected `QuotaExceeded` with the whole state (so in particular
`storageUsed`) unchanged. The general conjuncts: admission fails exactly
when `storageUsed + fileSize > storageLimit` (for a found user, a size
within the 2 GiB cap and a nonzero limit), a rejected upload returns the
state unchanged, and an admitted upload is not rejected. -/
theorem upload_quota_scenario :
    ((uploadPost stQuota "u3" "a.bin" 600 "application/octet-stream"
        "https://blob.example/a" "ba" 0 "fa").1.isOk = true) ∧
    (stQuota1.users.map User.storageUsed = [600]) ∧
    (uploadPost stQuota1 "u3" "b.bin" 600 "application/octet-stream"
        "https://blob.example/b" "bb" 1 "fb" = (.error .quotaExceeded, stQuota1)) ∧
    (∀ st uid fn sz mime url bn now nid user,
      st.users.find? (fun u => u.id == uid) = some user →
      sz ≤ maxUploadSize → user.storageLimit ≠ 0 →
      ((user.storageUsed + sz > user.storageLimit →
          uploadPost st uid fn sz mime url bn now nid = (.error .quotaExceeded, st)) ∧
        (user.storageUsed + sz ≤ user.storageLimit →
          (uploadPost st uid fn sz mime url bn now nid).1.isOk = true))) := by
  refine ⟨rfl, rfl, rfl, ?_⟩
  intro st uid fn sz mime url bn now nid user hu hsz hlim
  have hsz1 : ¬ sz > maxUploadSize := by omega
  have hused : orDefault user.storageUsed 0 = user.storageUsed := orDefault_zero _
  have hlim1 : orDefault user.storageLimit defaultStorageLimit = user.storageLimit := by
    simp only [orDefault]
    have : (user.storageLimit == 0) = false := by
      simpa using hlim
    simp [this]
  constructor
  · intro hover
    simp only [uploadPost, if_neg hsz1, hu, hused, hlim1]
    rw [if_pos hover]
  · intro hunder
    have hunder1 : ¬ user.storageUsed + sz > user.storageLimit := by omega
    simp only [uploadPost, if_neg hsz1, hu, hused, hlim1]
    rw [if_neg hunder1]
    rfl

/-- Witness for C3's general conjunct at a concrete input. -/
theorem upload_quota_scenario_witness :
    uploadPost stQuota1 "u3" "c.bin" 500 "application/octet-stream"
      "https://blob.example/c" "bc" 2 "fc" = (.error .quotaExceeded, stQuota1) :=
  ((upload_quota_scenario.2.2.2 stQuota1 "u3" "c.bin" 500
      "application/octet-stream" "https://blob.example/c" "bc" 2 "fc"
      { quotaUser with storageUsed := 600 }
      (by decide) (by decide) (by decide)).1 (by decide))

/-- Registration request that is complete except for `originalName`. -/
def reqNoOriginal : RegisterRequest :=
  { fileName := some "a.txt", originalName := none, fileSize := some 10,
    mimeType := some "text/plain", blobName := some "nb",
    blobUrl := some "https://blob.example/nb" }

/-- C4 counterexample: a registration request missing `originalName` (but
carrying the other five fields) is accepted — the handler's guard
`if (!fileName || !fileSize || !mimeType || !blobName || !blobUrl)` never
checks `originalName` — and a File record is created, against the claim
that all six inputs are required. -/
theorem register_accepts_missing_originalName :
    reqNoOriginal.originalName = none ∧
    (registerUpload stQuota "u3" reqNoOriginal (fun _ => true) 0 "fr").1.isOk = true ∧
    (registerUpload stQuota "u3" reqNoOriginal (fun _ => true) 0 "fr").2.files.length = 1 :=
  ⟨rfl, rfl, rfl⟩

/-- C4 (amended): the registration operation requires the five inputs
`fileName`, `fileSize`, `mimeType`, `blobName`, `blobUrl`: whenever any
one of them is missing (JavaScript-falsy) it rejects with
`InvalidRequest` and creates no File record (the state is returned
unchanged); `originalName` is not required — a request missing only
`originalName` is never rejected with `InvalidRequest`. -/
theorem register_required_fields (st : DriveState) (uid : String)
    (req : RegisterRequest) (ex : String → Bool) (now : Int) (nid : String) :
    ((strFalsy req.fileName = true ∨ intFalsy req.fileSize = true ∨
        strFalsy req.mimeType = true ∨ strFalsy req.blobName = true ∨
        strFalsy req.blobUrl = true) →
      registerUpload st uid req ex now nid = (.error .invalidRequest, st)) ∧
    (strFalsy req.fileName = false → intFalsy req.fileSize = false →
      strFalsy req.mimeType = false → strFalsy req.blobName = false →
      strFalsy req.blobUrl = false → req.originalName = none →
      (registerUpload st uid req ex now nid).1 ≠ .error .invalidRequest) := by
  constructor
  · intro h
    have hcond : (strFalsy req.fileName || intFalsy req.fileSize
        || strFalsy req.mimeType || strFalsy req.blobName
        || strFalsy req.blobUrl) = true := by
      rcases h with h | h | h | h | h <;> simp [h]
    simp [registerUpload, hcond]
  · intro h1 h2 h3 h4 h5 _
    have hcond : (strFalsy req.fileName || intFalsy req.fileSize
        || strFalsy req.mimeType || strFalsy req.blobName
        || strFalsy req.blobUrl) = false := by
      simp [h1, h2, h3, h4, h5]
    simp only [registerUpload, hcond]
    by_cases hex : ex (req.blobName.getD "") = true
    · simp only [hex]
      cases hu : st.users.find? (fun u => u.id == uid) <;> simp
    · have hex1 : ex (req.blobName.getD "") = false := by
        cases h : ex (req.blobName.getD "") <;> simp_all
      simp [hex1]

/-- Witness for C4's amended theorem at concrete inputs. -/
theorem register_required_fields_witness :
    registerUpload stQuota "u3" { reqNoOriginal with fileName := none }
        (fun _ => true) 0 "fr" = (.error .invalidRequest, stQuota) ∧
    (registerUpload stQuota "u3" reqNoOriginal (fun _ => true) 0 "fr").1 ≠
      .error .invalidRequest :=
  ⟨(register_required_fields stQuota "u3" { reqNoOriginal with fileName := none }
      (fun _ => true) 0 "fr").1 (Or.inl (by decide)),
   (register_required_fields stQuota "u3" reqNoOriginal
      (fun _ => true) 0 "fr").2 (by decide) (by decide) (by decide) (by decide)
      (by decide) rfl⟩

/-- Looking a user up by id after an id-preserving update finds the
updated version of the user it found before. -/
theorem find?_id_updateUser (uid : String) (g : User → User)
    (hg : ∀ u, (g u).id = u.id) (l : List User) :
    (updateUser uid g l).find? (fun u => u.id == uid) =
      (l.find? (fun u => u.id == uid)).map
        (fun u => if u.id == uid then g u else u) := by
  unfold updateUser
  apply find?_map_of_pred_eq
  intro x
  by_cases h : x.id == uid <;> simp [h, hg]

/-- The File document that `POST /api/upload/register` persists for a
complete request (`name = originalName || fileName`, schema defaults for
the remaining fields). -/
def registeredDocument (uid : String) (req : RegisterRequest) (now : Int)
    (nid : String) : File :=
  { id := nid, name := strOr req.originalName (req.fileName.getD ""),
    originalName := strOr req.originalName (req.fileName.getD ""),
    size := req.fileSize.getD 0, mimeType := req.mimeType.getD "",
    fileType := getFileType (req.mimeType.getD ""),
    blobUrl := req.blobUrl.getD "", blobName := req.blobName.getD "",
    userId := uid, uploadedAt := now, isDeleted := false, deletedAt := none,
    isStarred := false, isPublic := false, shareToken := none,
    description := none, tags := [] }

/-- C5: for a complete registration request, when the blob-existence
check fails the handler rejects with `VerificationFailed`, creating no
File record and leaving the user's `storageUsed` (indeed the whole state)
unchanged; when the blob exists and the caller's user document is found,
it persists the File record (appended to the collection, carrying the
claimed size and blob name) and increments `storageUsed` by
`fileSize`. -/
theorem register_verification_spec (st : DriveState) (uid : String)
    (req : RegisterRequest) (ex : String → Bool) (now : Int) (nid : String)
    (user : User)
    (h1 : strFalsy req.fileName = false) (h2 : intFalsy req.fileSize = false)
    (h3 : strFalsy req.mimeType = false) (h4 : strFalsy req.blobName = false)
    (h5 : strFalsy req.blobUrl = false) :
    (ex (req.blobName.getD "") = false →
      registerUpload st uid req ex now nid = (.error .verificationFailed, st)) ∧
    (ex (req.blobName.getD "") = true →
      st.users.find? (fun u => u.id == uid) = some user →
      ∃ nf, (registerUpload st uid req ex now nid).1 = .ok nf ∧
        (registerUpload st uid req ex now nid).2.files = st.files ++ [nf] ∧
        nf.size = req.fileSize.getD 0 ∧
        nf.blobName = req.blobName.getD "" ∧
        nf.isDeleted = false ∧
        ((registerUpload st uid req ex now nid).2.users.find?
            (fun u => u.id == uid)).map User.storageUsed =
          some (user.storageUsed + req.fileSize.getD 0)) := by
  have hcond : (strFalsy req.fileName || intFalsy req.fileSize
      || strFalsy req.mimeType || strFalsy req.blobName
      || strFalsy req.blobUrl) = false := by
    simp [h1, h2, h3, h4, h5]
  constructor
  · intro hex
    simp [registerUpload, hcond, hex]
  · intro hex hu
    have hid := List.find?_some hu
    refine ⟨registeredDocument uid req now nid, ?_, ?_, rfl, rfl, rfl, ?_⟩
    · simp [registerUpload, registeredDocument, hcond, hex, hu]
    · simp [registerUpload, registeredDocument, hcond, hex, hu]
    · have hmap := find?_id_updateUser uid
        (fun u => { u with storageUsed := user.storageUsed + req.fileSize.getD 0 })
        (fun _ => rfl) st.users
      have hid1 : user.id = uid := by simpa using hid
      simp [registerUpload, hcond, hex, hu, orDefault_zero, hmap, hid1]

/-- Witness for C5 at concrete inputs. -/
theorem register_verification_spec_witness :
    registerUpload stQuota "u3" reqNoOriginal (fun _ => false) 0 "fr" =
      (.error .verificationFailed, stQuota) ∧
    ((registerUpload stQuota "u3" reqNoOriginal (fun _ => true) 0 "fr").2.users.find?
        (fun u => u.id == "u3")).map User.storageUsed = some 10 :=
  ⟨(register_verification_spec stQuota "u3" reqNoOriginal (fun _ => false) 0 "fr"
      quotaUser (by decide) (by decide) (by decide) (by decide) (by decide)).1 rfl,
   by
    obtain ⟨nf, -, -, -, -, -, hstore⟩ :=
      (register_verification_spec stQuota "u3" reqNoOriginal (fun _ => true) 0 "fr"
        quotaUser (by decide) (by decide) (by decide) (by decide) (by decide)).2 rfl
        (by decide)
    simpa using hstore⟩

/-- C6: permanent delete rejects with `NotFound` and leaves the state
unchanged whenever every stored file with the requested id is live or not
owned by the caller; on a trashed owned file (with the owner present and
accounting non-degenerate, `size ≤ storageUsed`) it succeeds, decrements
the owner's `storageUsed` by the file's size, removes the document, and
the file id is afterwards absent from both the live (`all`) and the
`trash` listings. -/
theorem permanentlyDelete_spec (st : DriveState) (uid fid : String) (u : User) :
    ((∀ f ∈ st.files, f.id = fid → (f.isDeleted = false ∨ f.userId ≠ uid)) →
      permanentlyDelete st uid fid = (.error .notFound, st)) ∧
    (∀ f, st.files.find? (trashedOwnedBy fid uid) = some f →
      st.users.find? (fun v => v.id == uid) = some u →
      f.size ≤ u.storageUsed →
      (permanentlyDelete st uid fid).1 = .ok () ∧
      ((permanentlyDelete st uid fid).2.users.find? (fun v => v.id == uid)).map
          User.storageUsed = some (u.storageUsed - f.size) ∧
      (permanentlyDelete st uid fid).2.files = st.files.filter (fun g => g.id != fid) ∧
      (∀ now g, g ∈ listFiles (permanentlyDelete st uid fid).2 uid .all now → g.id ≠ fid) ∧
      (∀ now g, g ∈ listFiles (permanentlyDelete st uid fid).2 uid .trash now → g.id ≠ fid)) := by
  constructor
  · intro h
    have hnone : st.files.find? (trashedOwnedBy fid uid) = none := by
      rw [List.find?_eq_none]
      intro f hf hp
      simp only [trashedOwnedBy, Bool.and_eq_true, beq_iff_eq] at hp
      obtain ⟨⟨hfid, huid⟩, hdel⟩ := hp
      rcases h f hf hfid with h1 | h1
      · rw [h1] at hdel
        cases hdel
      · exact h1 huid
    simp [permanentlyDelete, hnone]
  · intro f hf hu hsz
    have hid1 : u.id = uid := by simpa using List.find?_some hu
    have hfiles : (permanentlyDelete st uid fid).2.files =
        st.files.filter (fun g => g.id != fid) := by
      simp [permanentlyDelete, hf]
    refine ⟨?_, ?_, hfiles, ?_, ?_⟩
    · simp [permanentlyDelete, hf]
    · have hmap := find?_id_updateUser uid
        (fun v => { v with storageUsed := max 0 (v.storageUsed - f.size) })
        (fun _ => rfl) st.users
      have hmax : max 0 (u.storageUsed - f.size) = u.storageUsed - f.size := by omega
      simp [permanentlyDelete, hf, hmap, hu, hid1, hmax]
    · intro now g hg
      have hg1 : g ∈ (permanentlyDelete st uid fid).2.files.filter
          (matchesQuery (buildQuery uid .all now)) := hg
      have hg2 := List.mem_of_mem_filter hg1
      rw [hfiles] at hg2
      have hne := (List.mem_filter.mp hg2).2
      simpa using hne
    · intro now g hg
      have hg1 : g ∈ (permanentlyDelete st uid fid).2.files.filter
          (matchesQuery (buildQuery uid .trash now)) := hg
      have hg2 := List.mem_of_mem_filter hg1
      rw [hfiles] at hg2
      have hne := (List.mem_filter.mp hg2).2
      simpa using hne

/-- Witness for C6 at concrete inputs. -/
theorem permanentlyDelete_spec_witness :
    permanentlyDelete stLive "u1" "f1" = (.error .notFound, stLive) ∧
    (permanentlyDelete stTrash "u1" "f2").1 = .ok () ∧
    ((permanentlyDelete stTrash "u1" "f2").2.users.find? (fun v => v.id == "u1")).map
      User.storageUsed = some 0 := by
  refine ⟨?_, ?_, ?_⟩
  · exact (permanentlyDelete_spec stLive "u1" "f1" aliceUser).1 (by decide)
  · exact ((permanentlyDelete_spec stTrash "u1" "f2" aliceUser).2 trashedFile
      (by decide) (by decide) (by decide)).1
  · have h := ((permanentlyDelete_spec stTrash "u1" "f2" aliceUser).2 trashedFile
      (by decide) (by decide) (by decide)).2.1
    exact h.trans (by decide)

/-- An update that changes neither `id`, `userId` nor `isDeleted` leaves
the live-owned selector's verdict unchanged on every element. -/
theorem liveOwnedBy_if_update (fid uid fid0 : String) (g : File → File)
    (hg : ∀ x, (g x).id = x.id ∧ (g x).userId = x.userId ∧ (g x).isDeleted = x.isDeleted) :
    ∀ x, liveOwnedBy fid uid (if x.id == fid0 then g x else x) = liveOwnedBy fid uid x := by
  intro x
  by_cases h : x.id == fid0
  · simp [liveOwnedBy, h, (hg x).1, (hg x).2.1, (hg x).2.2]
  · simp [h]

/-- Looking up a live owned file after an update that touches neither
`id`, `userId` nor `isDeleted` finds the updated version of the file
found before. -/
theorem find?_liveOwnedBy_updateFile (fid uid fid0 : String) (g : File → File)
    (hg : ∀ x, (g x).id = x.id ∧ (g x).userId = x.userId ∧ (g x).isDeleted = x.isDeleted)
    (l : List File) :
    (updateFile fid0 g l).find? (liveOwnedBy fid uid) =
      (l.find? (liveOwnedBy fid uid)).map (fun x => if x.id == fid0 then g x else x) := by
  unfold updateFile
  exact find?_map_of_pred_eq _ _ (liveOwnedBy_if_update fid uid fid0 g hg) l

/-- C7: share issuance is idempotent — when an issue call succeeds with
token `tok`, a second issue call on the resulting state returns the very
same `tok` (whatever fresh randomness `t1` it would draw) and does not
change the state; and after a successful revoke, a subsequent issue
stores and returns exactly the fresh token `t2` it draws, so whenever the
fresh draw differs from the revoked token the new token differs from the
old one. -/
theorem share_idempotence_spec (st st1 st2 : DriveState) (uid fid : String)
    (t t1 t2 tok : String) :
    (t ≠ "" → shareIssue st uid fid t = (.ok tok, st1) →
      shareIssue st1 uid fid t1 = (.ok tok, st1)) ∧
    (shareRevoke st uid fid = (.ok (), st2) →
      (shareIssue st2 uid fid t2).1 = .ok t2 ∧
      (t2 ≠ tok → (shareIssue st2 uid fid t2).1 ≠ .ok tok)) := by
  constructor
  · intro ht hissue
    cases hf : st.files.find? (liveOwnedBy fid uid) with
    | none => simp [shareIssue, hf] at hissue
    | some f =>
      by_cases hb : tokenFalsy f.shareToken = true
      · have h1 := congrArg Prod.fst hissue
        have h2 := congrArg Prod.snd hissue
        simp [shareIssue, hf, hb] at h1 h2
        have hfiles1 : st1.files = updateFile f.id
            (fun x => { x with shareToken := some t, isPublic := true }) st.files := by
          rw [← h2]
        have hfind1 : st1.files.find? (liveOwnedBy fid uid) =
            some { f with shareToken := some t, isPublic := true } := by
          rw [hfiles1,
            find?_liveOwnedBy_updateFile fid uid f.id
              (fun x => { x with shareToken := some t, isPublic := true })
              (fun _ => ⟨rfl, rfl, rfl⟩) st.files,
            hf]
          simp
        have hb1 : tokenFalsy (some t) = false := by
          simpa [tokenFalsy] using ht
        simp [shareIssue, hfind1, hb1, ← h1]
      · have hb1 : tokenFalsy f.shareToken = false := by
          cases h : tokenFalsy f.shareToken <;> simp_all
        have h1 := congrArg Prod.fst hissue
        have h2 := congrArg Prod.snd hissue
        simp [shareIssue, hf, hb1] at h1 h2
        rw [← h2]
        simp [shareIssue, hf, hb1, h1]
  · intro hrev
    cases hf : st.files.find? (liveOwnedBy fid uid) with
    | none => simp [shareRevoke, hf] at hrev
    | some f =>
      have h2 := congrArg Prod.snd hrev
      simp [shareRevoke, hf] at h2
      have hfiles2 : st2.files = updateFile f.id
          (fun x => { x with shareToken := none, isPublic := false }) st.files := by
        rw [← h2]
      have hfind2 : st2.files.find? (liveOwnedBy fid uid) =
          some { f with shareToken := none, isPublic := false } := by
        rw [hfiles2,
          find?_liveOwnedBy_updateFile fid uid f.id
            (fun x => { x with shareToken := none, isPublic := false })
            (fun _ => ⟨rfl, rfl, rfl⟩) st.files,
          hf]
        simp
      have hres : (shareIssue st2 uid fid t2).1 = .ok t2 := by
        simp [shareIssue, hfind2, tokenFalsy]
      refine ⟨hres, ?_⟩
      intro hne
      rw [hres]
      intro hcontra
      exact hne (by injection hcontra)

/-- State of the C7 witness after the first issue call. -/
def stShared : DriveState := (shareIssue stLive "u1" "f1" "tok1").2

/-- Witness for C7 at concrete inputs. -/
theorem share_idempotence_spec_witness :
    shareIssue stShared "u1" "f1" "tok2" = (.ok "tok1", stShared) ∧
    (shareIssue (shareRevoke stShared "u1" "f1").2 "u1" "f1" "tok3").1 = .ok "tok3" :=
  ⟨(share_idempotence_spec stLive stShared (shareRevoke stShared "u1" "f1").2
      "u1" "f1" "tok1" "tok2" "tok3" "tok1").1 (by decide) rfl,
   ((share_idempotence_spec stShared stShared (shareRevoke stShared "u1" "f1").2
      "u1" "f1" "tok1" "tok2" "tok3" "tok1").2 rfl).1⟩

/-- C8: the unauthenticated share-resolution read returns a file view
exactly when some stored file carries the token with `isPublic = true`
and `isDeleted = false`; the projection it returns is built from fields
other than the owner id and the internal blob name (changing those fields
never changes the view); and after the owner successfully revokes the
share of the (unique) file carrying the token, resolving the same token
returns `NotFound`. -/
theorem resolveShare_spec (st st2 : DriveState) (uid fid token : String) :
    ((resolveShare st token).isOk = true ↔
      ∃ f ∈ st.files, f.shareToken = some token ∧ f.isPublic = true ∧ f.isDeleted = false) ∧
    (∀ (f : File) (u bn : String),
      toPublicView { f with userId := u, blobName := bn } = toPublicView f) ∧
    (shareRevoke st uid fid = (.ok (), st2) →
      (∀ g ∈ st.files, g.shareToken = some token → g.id = fid) →
      resolveShare st2 token = .error .notFound) := by
  refine ⟨?_, ?_, ?_⟩
  · have hok : (resolveShare st token).isOk = (st.files.find? (shareMatch token)).isSome := by
      cases hf : st.files.find? (shareMatch token) <;>
        simp [resolveShare, hf, Except.isOk, Except.toBool]
    rw [hok, List.find?_isSome]
    constructor
    · rintro ⟨f, hmem, hp⟩
      simp only [shareMatch, Bool.and_eq_true, beq_iff_eq] at hp
      exact ⟨f, hmem, hp.1.1, hp.1.2, hp.2⟩
    · rintro ⟨f, hmem, h1, h2, h3⟩
      exact ⟨f, hmem, by simp [shareMatch, h1, h2, h3]⟩
  · intro f u bn
    rfl
  · intro hrev huniq
    cases hf : st.files.find? (liveOwnedBy fid uid) with
    | none => simp [shareRevoke, hf] at hrev
    | some f =>
      have hfid : f.id = fid := by
        have hp := List.find?_some hf
        simp [liveOwnedBy] at hp
        exact hp.1.1
      have h2 := congrArg Prod.snd hrev
      simp [shareRevoke, hf] at h2
      have hfiles2 : st2.files = updateFile f.id
          (fun x => { x with shareToken := none, isPublic := false }) st.files := by
        rw [← h2]
      have hnone : st2.files.find? (shareMatch token) = none := by
        rw [hfiles2, List.find?_eq_none]
        intro x hx hpx
        simp only [updateFile] at hx
        obtain ⟨y, hy, rfl⟩ := List.mem_map.mp hx
        by_cases hid : y.id == f.id
        · simp [shareMatch, hid] at hpx
        · simp only [hid, if_false] at hpx
          simp only [Bool.false_eq_true] at hid
          simp only [shareMatch, Bool.and_eq_true, beq_iff_eq] at hpx
          have := huniq y hy hpx.1.1
          rw [← hfid] at this
          simp [this] at hid
      simp [resolveShare, hnone]

/-- Publicly shared state for the C8 witness: `reportFile` carrying share
token `tokp`. -/
def stSharedPublic : DriveState := (shareIssue stLive "u1" "f1" "tokp").2

/-- State after revoking the C8 witness share. -/
def stRevoked : DriveState := (shareRevoke stSharedPublic "u1" "f1").2

/-- Witness for C8 at concrete inputs. -/
theorem resolveShare_spec_witness :
    (resolveShare stSharedPublic "tokp").isOk = true ∧
    resolveShare stRevoked "tokp" = .error .notFound :=
  ⟨(resolveShare_spec stSharedPublic stRevoked "u1" "f1" "tokp").1.mpr
      ⟨{ reportFile with shareToken := some "tokp", isPublic := true },
        by decide, rfl, rfl, rfl⟩,
   (resolveShare_spec stSharedPublic stRevoked "u1" "f1" "tokp").2.2 rfl (by decide)⟩

/-- All stored quota counters are non-negative. -/
def usersNonneg (st : DriveState) : Prop :=
  ∀ u ∈ st.users, 0 ≤ u.storageUsed

instance (st : DriveState) : Decidable (usersNonneg st) := by
  unfold usersNonneg
  infer_instance

/-- Clamped decrements keep every counter non-negative. -/
theorem nonneg_updateUser_clamp (uid : String) (s : Int) (l : List User)
    (h : ∀ u ∈ l, 0 ≤ u.storageUsed) :
    ∀ u ∈ updateUser uid (fun v => { v with storageUsed := max 0 (v.storageUsed - s) }) l,
      0 ≤ u.storageUsed := by
  intro u hu
  simp only [updateUser] at hu
  obtain ⟨y, hy, rfl⟩ := List.mem_map.mp hu
  by_cases hid : y.id == uid
  · simp only [hid, if_true]
    exact le_max_left 0 _
  · simp only [hid, Bool.false_eq_true, if_false]
    exact h y hy

/-- C10: both delete paths write `storageUsed := max(0, storageUsed -
size)` for the owner (and leave every other user's counter untouched), so
a state whose counters are all non-negative keeps that property across a
soft delete, across a permanent delete, and across the two run in
succession on the same file id (the double-decrement case). -/
theorem quota_decrement_clamped (uid fid : String) :
    (∀ (st : DriveState) (f : File), st.files.find? (liveOwnedBy fid uid) = some f →
      (softDelete st uid fid).2.users.map (fun u => (u.id, u.storageUsed)) =
        st.users.map (fun u =>
          (u.id, if u.id == uid then max 0 (u.storageUsed - f.size) else u.storageUsed))) ∧
    (∀ (st : DriveState) (f : File), st.files.find? (trashedOwnedBy fid uid) = some f →
      (permanentlyDelete st uid fid).2.users.map (fun u => (u.id, u.storageUsed)) =
        st.users.map (fun u =>
          (u.id, if u.id == uid then max 0 (u.storageUsed - f.size) else u.storageUsed))) ∧
    (∀ st : DriveState, usersNonneg st → usersNonneg (softDelete st uid fid).2) ∧
    (∀ st : DriveState, usersNonneg st → usersNonneg (permanentlyDelete st uid fid).2) ∧
    (∀ st : DriveState, usersNonneg st →
      usersNonneg (permanentlyDelete (softDelete st uid fid).2 uid fid).2) := by
  have husers : ∀ (st : DriveState),
      ((softDelete st uid fid).2.users = st.users ∨
        ∃ f : File, (softDelete st uid fid).2.users =
          updateUser uid (fun v => { v with storageUsed := max 0 (v.storageUsed - f.size) })
            st.users) := by
    intro st
    cases hf : st.files.find? (liveOwnedBy fid uid) with
    | none => left; simp [softDelete, hf]
    | some f => right; exact ⟨f, by simp [softDelete, hf]⟩
  have husers2 : ∀ (st : DriveState),
      ((permanentlyDelete st uid fid).2.users = st.users ∨
        ∃ f : File, (permanentlyDelete st uid fid).2.users =
          updateUser uid (fun v => { v with storageUsed := max 0 (v.storageUsed - f.size) })
            st.users) := by
    intro st
    cases hf : st.files.find? (trashedOwnedBy fid uid) with
    | none => left; simp [permanentlyDelete, hf]
    | some f => right; exact ⟨f, by simp [permanentlyDelete, hf]⟩
  have hsoftpres : ∀ st : DriveState, usersNonneg st → usersNonneg (softDelete st uid fid).2 := by
    intro st h
    rcases husers st with heq | ⟨f, heq⟩
    · intro u hu; rw [heq] at hu; exact h u hu
    · intro u hu; rw [heq] at hu; exact nonneg_updateUser_clamp uid f.size st.users h u hu
  have hpermpres : ∀ st : DriveState,
      usersNonneg st → usersNonneg (permanentlyDelete st uid fid).2 := by
    intro st h
    rcases husers2 st with heq | ⟨f, heq⟩
    · intro u hu; rw [heq] at hu; exact h u hu
    · intro u hu; rw [heq] at hu; exact nonneg_updateUser_clamp uid f.size st.users h u hu
  refine ⟨?_, ?_, hsoftpres, hpermpres, fun st h => hpermpres _ (hsoftpres st h)⟩
  · intro st f hf
    simp only [softDelete, hf, updateUser, List.map_map]
    apply List.map_congr_left
    intro u _
    by_cases hid : u.id == uid <;> simp [hid, Function.comp]
  · intro st f hf
    simp only [permanentlyDelete, hf, updateUser, List.map_map]
    apply List.map_congr_left
    intro u _
    by_cases hid : u.id == uid <;> simp [hid, Function.comp]

/-- Witness for C10 at concrete inputs: soft delete then permanent delete
of the same file decrements twice, the second decrement clamping at
zero. -/
theorem quota_decrement_clamped_witness :
    (softDelete stLive "u1" "f1").2.users.map (fun u => (u.id, u.storageUsed)) =
      [("u1", (0 : Int))] ∧
    usersNonneg (permanentlyDelete (softDelete stLive "u1" "f1").2 "u1" "f1").2 := by
  constructor
  · exact ((quota_decrement_clamped "u1" "f1").1 stLive reportFile (by decide)).trans
      (by decide)
  · exact (quota_decrement_clamped "u1" "f1").2.2.2.2 stLive (by decide)

end Drive
